import Mathlib

/-!
Verification of the admin_time backend core (credential lifecycle, classroom
sync, reminder engine, notification dispatcher) against its natural-language
specification.  The definitions below are a shallow embedding of the
TypeScript sources:

* `src/backend/src/services/notification.service.ts`
* `src/backend/src/services/classroom.service.ts`
* `src/backend/src/routes/google.routes.ts` (ReminderJob)
* `src/backend/src/jobs/index.ts` (SyncJob, scheduler)

Database rows become Lean structures, prisma queries become list operations,
JavaScript `Date` millisecond timestamps become `Int`, and JS truthiness of
optional values is modelled explicitly (`jsOr`, `jsOrStr`, `truthyStr`).
-/

namespace AdminTime

/-- Task status values of the Prisma schema, as used by the routes
(`PENDING`, `IN_PROGRESS`, `COMPLETED`, `SUBMITTED`, `LATE`). -/
inductive TaskStatus where
  | pending
  | inProgress
  | completed
  | submitted
  | late
deriving DecidableEq, Repr

/-- NotificationPreference row: the fields read by notification.service.ts and
by ReminderJob.  `quietHoursStart` and `quietHoursEnd` are nullable "HH:MM"
strings. -/
structure NotificationPrefs where
  newTasksEnabled : Bool
  classRemindersEnabled : Bool
  gymRemindersEnabled : Bool
  propedeuticoEnabled : Bool
  taskDue24hEnabled : Bool
  taskDue1hEnabled : Bool
  quietHoursEnabled : Bool
  quietHoursStart : Option String
  quietHoursEnd : Option String
deriving DecidableEq, Repr

/-- JS truthiness of a nullable string: `null`/`undefined` and `""` are falsy. -/
def truthyStr : Option String → Bool
  | none => false
  | some s => !(s == "")

/-- Lexicographic order on character lists by code point; on ASCII strings this
is exactly the JavaScript `<` relational operator on strings (which compares
UTF-16 code units). -/
def strLtList : List Char → List Char → Bool
  | [], [] => false
  | [], _ :: _ => true
  | _ :: _, [] => false
  | a :: as, b :: bs =>
    if a.toNat < b.toNat then true
    else if b.toNat < a.toNat then false
    else strLtList as bs

/-- JS string `a < b`. -/
def strLt (a b : String) : Bool := strLtList a.toList b.toList

/-- JS string `a <= b` (equivalently `!(b < a)`). -/
def strLe (a b : String) : Bool := !(strLt b a)

/-- Outcome of one call to `NotificationService.sendToUser` (or of a
category helper such as `sendTaskDueNotification`): blocked by the category
preference toggle, silently suppressed by quiet hours, dropped because the
user has no active push token, or delivered to `tokenCount` device tokens. -/
inductive SendOutcome where
  | prefDisabled
  | suppressedQuiet
  | noTokens
  | delivered (tokenCount : Nat)
deriving DecidableEq, Repr

/-- The quiet-hours suppression test inside `sendToUser`
(notification.service.ts lines 58-67): guarded by
`prefs?.quietHoursEnabled && prefs.quietHoursStart && prefs.quietHoursEnd`
(JS truthiness), it suppresses when
`currentTime >= prefs.quietHoursStart || currentTime <= prefs.quietHoursEnd`,
where `>=` and `<=` are JS string comparisons (`strLe`). -/
def quietSuppressed (prefs : Option NotificationPrefs) (nowHM : String) : Bool :=
  match prefs with
  | none => false
  | some p =>
    if p.quietHoursEnabled && truthyStr p.quietHoursStart
        && truthyStr p.quietHoursEnd then
      let s := p.quietHoursStart.getD ""
      let e := p.quietHoursEnd.getD ""
      strLe s nowHM || strLe nowHM e
    else false

/-- `NotificationService.sendToUser` (notification.service.ts lines 51-80):
quiet-hours check first, then the active-token lookup, then one batched push
call.  `activeTokens` is the number of active PushToken rows of the user. -/
def sendToUser (prefs : Option NotificationPrefs) (nowHM : String)
    (activeTokens : Nat) : SendOutcome :=
  if quietSuppressed prefs nowHM then .suppressedQuiet
  else if activeTokens == 0 then .noTokens
  else .delivered activeTokens

/-- Concrete preference row with quiet hours 22:00 - 07:00, all toggles on. -/
def quietPrefs2207 : NotificationPrefs :=
  { newTasksEnabled := true
    classRemindersEnabled := true
    gymRemindersEnabled := true
    propedeuticoEnabled := true
    taskDue24hEnabled := true
    taskDue1hEnabled := true
    quietHoursEnabled := true
    quietHoursStart := some "22:00"
    quietHoursEnd := some "07:00" }

theorem quietSuppressed_iff (p : NotificationPrefs) (nowHM s e : String)
    (hen : p.quietHoursEnabled = true)
    (hs : p.quietHoursStart = some s) (hsne : s ≠ "")
    (he : p.quietHoursEnd = some e) (hene : e ≠ "") :
    quietSuppressed (some p) nowHM = true ↔
      (strLe s nowHM = true ∨ strLe nowHM e = true) := by
  simp only [quietSuppressed, hs, he, hen, truthyStr]
  simp [hsne, hene]

/-- C3 counterexample: with quiet hours 22:00 - 07:00 and now = 23:00 the code
suppresses the send, yet 23:00 does not lie in the half-open same-day
lexicographic interval [22:00, 07:00) that the claim says governs
suppression, so the claimed "if and only if" is false at this input. -/
theorem C3_counterexample :
    sendToUser (some quietPrefs2207) "23:00" 1 = SendOutcome.suppressedQuiet ∧
    ¬(strLe "22:00" "23:00" = true ∧ strLt "23:00" "07:00" = true) := by
  constructor
  · decide
  · decide

/-- C3 amended: for a user whose preference row has quiet hours enabled with
both bounds set to non-empty strings, `sendToUser` suppresses delivery if and
only if now ≥ quietHoursStart OR now ≤ quietHoursEnd (JS lexicographic string
comparison, both comparisons inclusive) — not membership in the same-day
half-open interval [start, end).  In particular, with start 22:00, end 07:00
and now 23:00, delivery is suppressed. -/
theorem C3_quiet_hours_amended (p : NotificationPrefs) (nowHM : String)
    (tok : Nat) (s e : String)
    (hen : p.quietHoursEnabled = true)
    (hs : p.quietHoursStart = some s) (hsne : s ≠ "")
    (he : p.quietHoursEnd = some e) (hene : e ≠ "") :
    sendToUser (some p) nowHM tok = SendOutcome.suppressedQuiet ↔
      (strLe s nowHM = true ∨ strLe nowHM e = true) := by
  rw [← quietSuppressed_iff p nowHM s e hen hs hsne he hene]
  by_cases hq : quietSuppressed (some p) nowHM = true
  · simp [sendToUser, hq]
  · rcases Nat.eq_zero_or_pos tok with h0 | h0
    · simp [sendToUser, hq, h0]
    · have ht : (tok == 0) = false := by
        simp [Nat.pos_iff_ne_zero.mp h0]
      simp [sendToUser, hq, ht]

/-- Witness for the amended C3 theorem at the concrete spec scenario. -/
theorem C3_quiet_hours_amended_witness :
    sendToUser (some quietPrefs2207) "23:00" 1 = SendOutcome.suppressedQuiet :=
  (C3_quiet_hours_amended quietPrefs2207 "23:00" 1 "22:00" "07:00"
      rfl rfl (by decide) rfl (by decide)).mpr (Or.inl (by decide))

/-- GoogleClassroomConnection row: the fields read by getAuthenticatedClient
and by SyncJob.  `tokenExpiry` and `lastSyncAt` are `Date.getTime()`
millisecond timestamps. -/
structure Connection where
  userId : String
  accessToken : String
  refreshToken : String
  tokenExpiry : Int
  syncEnabled : Bool
  lastSyncAt : Option Int
deriving DecidableEq, Repr

/-- Result of `ClassroomService.getAuthenticatedClient`: the two thrown errors
("Google not connected", "OAuth not configured") or the classroom client;
`refreshed` records whether `refreshAccessToken` was called on the way. -/
inductive AuthResult where
  | notConnected
  | notConfigured
  | client (refreshed : Bool)
deriving DecidableEq, Repr

/-- `ClassroomService.getAuthenticatedClient` (classroom.service.ts lines
34-70): throw when the user has no connection row, throw when the stored
accessToken is empty, refresh the credential exactly when
`connection.tokenExpiry < new Date()`, then return the client. -/
def getAuthenticatedClient (conn : Option Connection) (now : Int) : AuthResult :=
  match conn with
  | none => .notConnected
  | some c =>
    if c.accessToken == "" then .notConfigured
    else if c.tokenExpiry < now then .client true
    else .client false

/-- A connection whose credential expiry is exactly the current instant. -/
def connAtBoundary : Connection :=
  { userId := "u1"
    accessToken := "tok"
    refreshToken := "r"
    tokenExpiry := 5000
    syncEnabled := true
    lastSyncAt := none }

/-- C9 counterexample: at the boundary where the stored expiry equals "now"
(both 5000 ms), the expiry is at-or-before now and the claim demands a
refresh, but the code's strict `tokenExpiry < new Date()` test returns the
client without refreshing. -/
theorem C9_counterexample :
    connAtBoundary.tokenExpiry ≤ 5000 ∧ connAtBoundary.accessToken ≠ "" ∧
    getAuthenticatedClient (some connAtBoundary) 5000 =
      AuthResult.client false := by
  refine ⟨by decide, by decide, by decide⟩

/-- C9 amended: for an account with a non-empty stored access credential,
`getAuthenticatedClient` refreshes the credential if and only if the stored
expiry is strictly before "now"; when the expiry equals now or lies after
now, the client is returned without a refresh. -/
theorem C9_refresh_iff_strictly_expired (c : Connection) (now : Int)
    (h : c.accessToken ≠ "") :
    getAuthenticatedClient (some c) now =
      AuthResult.client (decide (c.tokenExpiry < now)) := by
  have hb : (c.accessToken == "") = false := by
    simp [h]
  by_cases hlt : c.tokenExpiry < now
  · simp [getAuthenticatedClient, hb, hlt]
  · simp [getAuthenticatedClient, hb, hlt]

/-- Witness for the amended C9 theorem: a credential one millisecond past its
expiry is refreshed. -/
theorem C9_refresh_iff_strictly_expired_witness :
    getAuthenticatedClient (some connAtBoundary) 5001 =
      AuthResult.client true := by
  have h := C9_refresh_iff_strictly_expired connAtBoundary 5001 (by decide)
  simpa using h

/-- `prefs?.taskDue24hEnabled !== false` (google.routes.ts line 335): a missing
preference row counts as enabled. -/
def due24hAllowed : Option NotificationPrefs → Bool
  | none => true
  | some p => p.taskDue24hEnabled

/-- `prefs?.taskDue1hEnabled !== false` (google.routes.ts line 346). -/
def due1hAllowed : Option NotificationPrefs → Bool
  | none => true
  | some p => p.taskDue1hEnabled

/-- `prefs && !prefs.taskDue1hEnabled` (notification.service.ts line 145). -/
def prefsBlock1h : Option NotificationPrefs → Bool
  | none => false
  | some p => !p.taskDue1hEnabled

/-- `prefs && !prefs.taskDue24hEnabled` (notification.service.ts line 146). -/
def prefsBlock24h : Option NotificationPrefs → Bool
  | none => false
  | some p => !p.taskDue24hEnabled

/-- `NotificationService.sendTaskDueNotification` (notification.service.ts
lines 140-157): its own preference gate on `hoursLeft`, then `sendToUser`. -/
def sendTaskDue (prefs : Option NotificationPrefs) (nowHM : String)
    (activeTokens : Nat) (hoursLeft : Nat) : SendOutcome :=
  if decide (hoursLeft ≤ 1) && prefsBlock1h prefs then .prefDisabled
  else if decide (hoursLeft ≤ 24) && decide (1 < hoursLeft)
      && prefsBlock24h prefs then .prefDisabled
  else sendToUser prefs nowHM activeTokens

/-- `hoursUntilDue <= 24 && hoursUntilDue > 23` (google.routes.ts line 336),
expressed exactly over integer milliseconds: the JS value is
`(due - now) / 3600000` computed in real arithmetic, so `23 < h ≤ 24` is
equivalent to `23 * 3600000 < due - now ≤ 24 * 3600000`. -/
def in24hWindow (due now : Int) : Bool :=
  decide (23 * 3600000 < due - now) && decide (due - now ≤ 24 * 3600000)

/-- `hoursUntilDue <= 1 && hoursUntilDue > 0` (google.routes.ts line 347) over
integer milliseconds. -/
def in1hWindow (due now : Int) : Bool :=
  decide (0 < due - now) && decide (due - now ≤ 3600000)

/-- The Task fields read and written by `ReminderJob.checkTaskDueReminders`;
`dueDate` is a nullable millisecond timestamp. -/
structure RTask where
  dueDate : Option Int
  status : TaskStatus
  notified24h : Bool
  notified1h : Bool
deriving DecidableEq, Repr

/-- The prisma query filter of checkTaskDueReminders (google.routes.ts lines
321-327): `status in [PENDING, IN_PROGRESS]` and `dueDate not null`. -/
def dueQueryMatch (t : RTask) : Bool :=
  (t.status == .pending || t.status == .inProgress) && t.dueDate.isSome

/-- One evaluation of `ReminderJob.checkTaskDueReminders` restricted to a
single task (google.routes.ts lines 317-356): the query filter, then the 24h
branch (send, then set notified24h), then the 1h branch (send, then set
notified1h).  `now` is the clock in milliseconds and `nowHM` the same instant
as "HH:MM" (read by the quiet-hours check inside sendToUser).  The emission
list records each invocation of sendTaskDueNotification with its hoursLeft
argument and delivery outcome; the flag update is unconditional on that
outcome.  Both branch guards read the in-memory `task` object returned by the
query; the 24h branch's database update does not mutate that object, so the
1h guard tests the task's original `notified1h` value. -/
def checkTaskDueTick (prefs : Option NotificationPrefs) (nowHM : String)
    (activeTokens : Nat) (now : Int) (t : RTask) :
    RTask × List (Nat × SendOutcome) :=
  if !dueQueryMatch t then (t, []) else
  match t.dueDate with
  | none => (t, [])
  | some due =>
    let fire24 := due24hAllowed prefs && !t.notified24h && in24hWindow due now
    let fire1 := due1hAllowed prefs && !t.notified1h && in1hWindow due now
    let t24 := if fire24 then { t with notified24h := true } else t
    let e24 := if fire24 then [(24, sendTaskDue prefs nowHM activeTokens 24)]
               else ([] : List (Nat × SendOutcome))
    let tFin := if fire1 then { t24 with notified1h := true } else t24
    let e1 := if fire1 then [(1, sendTaskDue prefs nowHM activeTokens 1)]
              else ([] : List (Nat × SendOutcome))
    (tFin, e24 ++ e1)

/-- A sequence of reminder-engine ticks applied to one task, each tick given
as an instant (millisecond clock, "HH:MM" clock).  Returns the final task row
and all emissions in order. -/
def checkTaskDueTicks (prefs : Option NotificationPrefs) (activeTokens : Nat) :
    List (Int × String) → RTask → RTask × List (Nat × SendOutcome)
  | [], t => (t, [])
  | (now, hm) :: rest, t =>
    let r1 := checkTaskDueTick prefs hm activeTokens now t
    let r2 := checkTaskDueTicks prefs activeTokens rest r1.1
    (r2.1, r1.2 ++ r2.2)

/-- Number of emissions of a given hoursLeft kind (24 or 1) in an emission
list. -/
def countKind (k : Nat) (es : List (Nat × SendOutcome)) : Nat :=
  es.countP (fun e => e.1 == k)

theorem countKind_append (k : Nat) (a b : List (Nat × SendOutcome)) :
    countKind k (a ++ b) = countKind k a + countKind k b := by
  simp [countKind, List.countP_append]

theorem dueQueryMatch_of (t : RTask) (due : Int) (hdue : t.dueDate = some due)
    (hst : t.status = TaskStatus.pending ∨ t.status = TaskStatus.inProgress) :
    dueQueryMatch t = true := by
  rcases hst with h | h <;> simp [dueQueryMatch, h, hdue]

theorem checkTaskDueTick_preserves (prefs : Option NotificationPrefs)
    (nowHM : String) (a : Nat) (now : Int) (t : RTask) :
    ((checkTaskDueTick prefs nowHM a now t).1).dueDate = t.dueDate ∧
    ((checkTaskDueTick prefs nowHM a now t).1).status = t.status := by
  unfold checkTaskDueTick
  by_cases hq : dueQueryMatch t
  · cases hdd : t.dueDate with
    | none => simp [hq, hdd]
    | some due =>
      by_cases h24 : due24hAllowed prefs && !t.notified24h && in24hWindow due now <;>
      by_cases h1 : due1hAllowed prefs && !t.notified1h && in1hWindow due now <;>
        simp [hq, hdd, h24, h1]
  · simp [hq]

theorem checkTaskDueTick_cases24 (prefs : Option NotificationPrefs)
    (nowHM : String) (a : Nat) (now : Int) (t : RTask) :
    (((checkTaskDueTick prefs nowHM a now t).1).notified24h = t.notified24h ∧
      countKind 24 (checkTaskDueTick prefs nowHM a now t).2 = 0) ∨
    (t.notified24h = false ∧
      ((checkTaskDueTick prefs nowHM a now t).1).notified24h = true ∧
      countKind 24 (checkTaskDueTick prefs nowHM a now t).2 = 1) := by
  unfold checkTaskDueTick
  by_cases hq : dueQueryMatch t
  · cases hdd : t.dueDate with
    | none => left; simp [hq, hdd, countKind]
    | some due =>
      by_cases h24 : due24hAllowed prefs && !t.notified24h && in24hWindow due now
      · right
        have hsplit := h24
        simp only [Bool.and_eq_true, Bool.not_eq_true'] at hsplit
        obtain ⟨⟨ha, hf⟩, hw⟩ := hsplit
        by_cases h1 : due1hAllowed prefs && !t.notified1h && in1hWindow due now <;>
          simp [hq, hdd, h24, h1, ha, hf, hw, countKind, List.countP_append,
            List.countP_cons]
      · left
        by_cases h1 : due1hAllowed prefs && !t.notified1h && in1hWindow due now <;>
          simp [hq, hdd, h24, h1, countKind, List.countP_append,
            List.countP_cons]
  · left; simp [hq, countKind]

theorem checkTaskDueTick_cases1 (prefs : Option NotificationPrefs)
    (nowHM : String) (a : Nat) (now : Int) (t : RTask) :
    (((checkTaskDueTick prefs nowHM a now t).1).notified1h = t.notified1h ∧
      countKind 1 (checkTaskDueTick prefs nowHM a now t).2 = 0) ∨
    (t.notified1h = false ∧
      ((checkTaskDueTick prefs nowHM a now t).1).notified1h = true ∧
      countKind 1 (checkTaskDueTick prefs nowHM a now t).2 = 1) := by
  unfold checkTaskDueTick
  by_cases hq : dueQueryMatch t
  · cases hdd : t.dueDate with
    | none => left; simp [hq, hdd, countKind]
    | some due =>
      by_cases h1 : due1hAllowed prefs && !t.notified1h && in1hWindow due now
      · right
        have hsplit := h1
        simp only [Bool.and_eq_true, Bool.not_eq_true'] at hsplit
        obtain ⟨⟨ha, hf⟩, hw⟩ := hsplit
        by_cases h24 : due24hAllowed prefs && !t.notified24h && in24hWindow due now <;>
          simp [hq, hdd, h24, h1, ha, hf, hw, countKind, List.countP_append,
            List.countP_cons]
      · left
        by_cases h24 : due24hAllowed prefs && !t.notified24h && in24hWindow due now <;>
          simp [hq, hdd, h24, h1, countKind, List.countP_append,
            List.countP_cons]
  · left; simp [hq, countKind]

theorem checkTaskDueTicks_mono24 (prefs : Option NotificationPrefs) (a : Nat) :
    ∀ (ticks : List (Int × String)) (t : RTask), t.notified24h = true →
      ((checkTaskDueTicks prefs a ticks t).1).notified24h = true
  | [], t, h => h
  | (now, hm) :: rest, t, h => by
    unfold checkTaskDueTicks
    rcases checkTaskDueTick_cases24 prefs hm a now t with ⟨hp, _⟩ | ⟨hf, _, _⟩
    · exact checkTaskDueTicks_mono24 prefs a rest _ (hp.trans h)
    · rw [h] at hf; cases hf

theorem checkTaskDueTicks_mono1 (prefs : Option NotificationPrefs) (a : Nat) :
    ∀ (ticks : List (Int × String)) (t : RTask), t.notified1h = true →
      ((checkTaskDueTicks prefs a ticks t).1).notified1h = true
  | [], t, h => h
  | (now, hm) :: rest, t, h => by
    unfold checkTaskDueTicks
    rcases checkTaskDueTick_cases1 prefs hm a now t with ⟨hp, _⟩ | ⟨hf, _, _⟩
    · exact checkTaskDueTicks_mono1 prefs a rest _ (hp.trans h)
    · rw [h] at hf; cases hf

theorem checkTaskDueTicks_count24 (prefs : Option NotificationPrefs) (a : Nat) :
    ∀ (ticks : List (Int × String)) (t : RTask),
      countKind 24 (checkTaskDueTicks prefs a ticks t).2 =
        if t.notified24h then 0
        else if ((checkTaskDueTicks prefs a ticks t).1).notified24h then 1
        else 0
  | [], t => by
    cases h : t.notified24h <;> simp [checkTaskDueTicks, countKind, h]
  | (now, hm) :: rest, t => by
    unfold checkTaskDueTicks
    rw [countKind_append]
    rcases checkTaskDueTick_cases24 prefs hm a now t with ⟨hp, hc⟩ | ⟨hf, hs, hc⟩
    · rw [hc, checkTaskDueTicks_count24 prefs a rest _, hp]
      cases h : t.notified24h <;> simp [h]
    · rw [hc, checkTaskDueTicks_count24 prefs a rest _, hf]
      have hmono := checkTaskDueTicks_mono24 prefs a rest _ hs
      simp [hs, hmono]

theorem checkTaskDueTicks_count1 (prefs : Option NotificationPrefs) (a : Nat) :
    ∀ (ticks : List (Int × String)) (t : RTask),
      countKind 1 (checkTaskDueTicks prefs a ticks t).2 =
        if t.notified1h then 0
        else if ((checkTaskDueTicks prefs a ticks t).1).notified1h then 1
        else 0
  | [], t => by
    cases h : t.notified1h <;> simp [checkTaskDueTicks, countKind, h]
  | (now, hm) :: rest, t => by
    unfold checkTaskDueTicks
    rw [countKind_append]
    rcases checkTaskDueTick_cases1 prefs hm a now t with ⟨hp, hc⟩ | ⟨hf, hs, hc⟩
    · rw [hc, checkTaskDueTicks_count1 prefs a rest _, hp]
      cases h : t.notified1h <;> simp [h]
    · rw [hc, checkTaskDueTicks_count1 prefs a rest _, hf]
      have hmono := checkTaskDueTicks_mono1 prefs a rest _ hs
      simp [hs, hmono]

theorem checkTaskDueTick_fire24 (prefs : Option NotificationPrefs)
    (nowHM : String) (a : Nat) (now : Int) (t : RTask) (due : Int)
    (hdue : t.dueDate = some due)
    (hst : t.status = TaskStatus.pending ∨ t.status = TaskStatus.inProgress)
    (hall : due24hAllowed prefs = true) (hf : t.notified24h = false)
    (hw : in24hWindow due now = true) :
    ((checkTaskDueTick prefs nowHM a now t).1).notified24h = true := by
  have hq := dueQueryMatch_of t due hdue hst
  unfold checkTaskDueTick
  have h24 : (due24hAllowed prefs && !t.notified24h && in24hWindow due now)
      = true := by simp [hall, hf, hw]
  by_cases h1 : due1hAllowed prefs && !t.notified1h && in1hWindow due now <;>
    simp [hq, hdue, h24, h1]

theorem checkTaskDueTick_fire1 (prefs : Option NotificationPrefs)
    (nowHM : String) (a : Nat) (now : Int) (t : RTask) (due : Int)
    (hdue : t.dueDate = some due)
    (hst : t.status = TaskStatus.pending ∨ t.status = TaskStatus.inProgress)
    (hall : due1hAllowed prefs = true) (hf : t.notified1h = false)
    (hw : in1hWindow due now = true) :
    ((checkTaskDueTick prefs nowHM a now t).1).notified1h = true := by
  have hq := dueQueryMatch_of t due hdue hst
  unfold checkTaskDueTick
  have h1 : (due1hAllowed prefs && !t.notified1h && in1hWindow due now)
      = true := by simp [hall, hf, hw]
  by_cases h24 : due24hAllowed prefs && !t.notified24h && in24hWindow due now <;>
    simp [hq, hdue, h24, h1]

theorem checkTaskDueTicks_reach24 (prefs : Option NotificationPrefs) (a : Nat)
    (due : Int) :
    ∀ (ticks : List (Int × String)) (t : RTask),
      t.dueDate = some due →
      (t.status = TaskStatus.pending ∨ t.status = TaskStatus.inProgress) →
      due24hAllowed prefs = true →
      (∃ tk ∈ ticks, in24hWindow due tk.1 = true) →
      ((checkTaskDueTicks prefs a ticks t).1).notified24h = true
  | [], _, _, _, _, hex => by simp at hex
  | (now, hm) :: rest, t, hdue, hst, hall, hex => by
    unfold checkTaskDueTicks
    rcases hex with ⟨tk, htk, hw⟩
    rcases List.mem_cons.mp htk with rfl | htk
    · cases hf : t.notified24h with
      | true =>
        rcases checkTaskDueTick_cases24 prefs hm a now t with ⟨hp, _⟩ | ⟨hc, _, _⟩
        · exact checkTaskDueTicks_mono24 prefs a rest _ (hp.trans hf)
        · rw [hf] at hc; cases hc
      | false =>
        exact checkTaskDueTicks_mono24 prefs a rest _
          (checkTaskDueTick_fire24 prefs hm a now t due hdue hst hall hf hw)
    · have hpre := checkTaskDueTick_preserves prefs hm a now t
      exact checkTaskDueTicks_reach24 prefs a due rest _
        (hpre.1.trans hdue) (hpre.2 ▸ hst) hall ⟨tk, htk, hw⟩

theorem checkTaskDueTicks_reach1 (prefs : Option NotificationPrefs) (a : Nat)
    (due : Int) :
    ∀ (ticks : List (Int × String)) (t : RTask),
      t.dueDate = some due →
      (t.status = TaskStatus.pending ∨ t.status = TaskStatus.inProgress) →
      due1hAllowed prefs = true →
      (∃ tk ∈ ticks, in1hWindow due tk.1 = true) →
      ((checkTaskDueTicks prefs a ticks t).1).notified1h = true
  | [], _, _, _, _, hex => by simp at hex
  | (now, hm) :: rest, t, hdue, hst, hall, hex => by
    unfold checkTaskDueTicks
    rcases hex with ⟨tk, htk, hw⟩
    rcases List.mem_cons.mp htk with rfl | htk
    · cases hf : t.notified1h with
      | true =>
        rcases checkTaskDueTick_cases1 prefs hm a now t with ⟨hp, _⟩ | ⟨hc, _, _⟩
        · exact checkTaskDueTicks_mono1 prefs a rest _ (hp.trans hf)
        · rw [hf] at hc; cases hc
      | false =>
        exact checkTaskDueTicks_mono1 prefs a rest _
          (checkTaskDueTick_fire1 prefs hm a now t due hdue hst hall hf hw)
    · have hpre := checkTaskDueTick_preserves prefs hm a now t
      exact checkTaskDueTicks_reach1 prefs a due rest _
        (hpre.1.trans hdue) (hpre.2 ▸ hst) hall ⟨tk, htk, hw⟩

/-- C1: for a task with a due date, status PENDING or IN_PROGRESS (the
engine's "not completed" filter) and the due-reminder toggles not disabled,
any tick sequence that visits the 24h window and the 1h window at least once
produces exactly one 24h emission and exactly one 1h emission regardless of
how many ticks fall inside each window; afterwards both notified flags are
true, and a flag that is already true is never reset by any tick sequence. -/
theorem C1_exactly_once_due_reminders (prefs : Option NotificationPrefs)
    (a : Nat) (ticks : List (Int × String)) (t : RTask) (due : Int)
    (hdue : t.dueDate = some due)
    (hst : t.status = TaskStatus.pending ∨ t.status = TaskStatus.inProgress)
    (h24a : due24hAllowed prefs = true) (h1a : due1hAllowed prefs = true)
    (hf24 : t.notified24h = false) (hf1 : t.notified1h = false)
    (hc24 : ∃ tk ∈ ticks, in24hWindow due tk.1 = true)
    (hc1 : ∃ tk ∈ ticks, in1hWindow due tk.1 = true) :
    countKind 24 (checkTaskDueTicks prefs a ticks t).2 = 1 ∧
    countKind 1 (checkTaskDueTicks prefs a ticks t).2 = 1 ∧
    ((checkTaskDueTicks prefs a ticks t).1).notified24h = true ∧
    ((checkTaskDueTicks prefs a ticks t).1).notified1h = true ∧
    (∀ u : RTask, u.notified24h = true →
      ((checkTaskDueTicks prefs a ticks u).1).notified24h = true) ∧
    (∀ u : RTask, u.notified1h = true →
      ((checkTaskDueTicks prefs a ticks u).1).notified1h = true) := by
  have h24 := checkTaskDueTicks_reach24 prefs a due ticks t hdue hst h24a hc24
  have h1 := checkTaskDueTicks_reach1 prefs a due ticks t hdue hst h1a hc1
  refine ⟨?_, ?_, h24, h1, ?_, ?_⟩
  · rw [checkTaskDueTicks_count24 prefs a ticks t, hf24]
    simp [h24]
  · rw [checkTaskDueTicks_count1 prefs a ticks t, hf1]
    simp [h1]
  · exact fun u hu => checkTaskDueTicks_mono24 prefs a ticks u hu
  · exact fun u hu => checkTaskDueTicks_mono1 prefs a ticks u hu

/-- A pending task due at millisecond 200000000, flags clear. -/
def sampleDueTask : RTask :=
  { dueDate := some 200000000
    status := TaskStatus.pending
    notified24h := false
    notified1h := false }

/-- Four concrete ticks: two inside the 24h window of `sampleDueTask`, one
inside its 1h window, one outside both. -/
def sampleTicks : List (Int × String) :=
  [(113600000, "10:00"), (114000000, "10:06"),
   (196400000, "09:00"), (199000000, "09:43")]

/-- Witness for C1 at a concrete task and tick sequence. -/
theorem C1_exactly_once_due_reminders_witness :
    countKind 24 (checkTaskDueTicks none 1 sampleTicks sampleDueTask).2 = 1 ∧
    countKind 1 (checkTaskDueTicks none 1 sampleTicks sampleDueTask).2 = 1 ∧
    ((checkTaskDueTicks none 1 sampleTicks sampleDueTask).1).notified24h
      = true ∧
    ((checkTaskDueTicks none 1 sampleTicks sampleDueTask).1).notified1h
      = true := by
  have h := C1_exactly_once_due_reminders none 1 sampleTicks sampleDueTask
    200000000 rfl (Or.inl rfl) rfl rfl rfl rfl
    (by refine ⟨(113600000, "10:00"), by decide, by decide⟩)
    (by refine ⟨(196400000, "09:00"), by decide, by decide⟩)
  exact ⟨h.1, h.2.1, h.2.2.1, h.2.2.2.1⟩

theorem prefsBlock24h_of_allowed (prefs : Option NotificationPrefs)
    (h : due24hAllowed prefs = true) : prefsBlock24h prefs = false := by
  cases prefs with
  | none => rfl
  | some p => simpa [due24hAllowed, prefsBlock24h] using h

theorem prefsBlock1h_of_allowed (prefs : Option NotificationPrefs)
    (h : due1hAllowed prefs = true) : prefsBlock1h prefs = false := by
  cases prefs with
  | none => rfl
  | some p => simpa [due1hAllowed, prefsBlock1h] using h

theorem windows_disjoint (due now : Int) :
    in24hWindow due now = true → in1hWindow due now = false := by
  simp only [in24hWindow, in1hWindow, Bool.and_eq_true, decide_eq_true_eq]
  intro h
  simp only [Bool.and_eq_false_iff, decide_eq_false_iff_not]
  right
  omega

theorem sendTaskDue_24_suppressed (prefs : Option NotificationPrefs)
    (nowHM : String) (a : Nat)
    (hall : due24hAllowed prefs = true)
    (hsup : quietSuppressed prefs nowHM = true) :
    sendTaskDue prefs nowHM a 24 = SendOutcome.suppressedQuiet := by
  have hb := prefsBlock24h_of_allowed prefs hall
  simp [sendTaskDue, hb, sendToUser, hsup]

theorem sendTaskDue_1_suppressed (prefs : Option NotificationPrefs)
    (nowHM : String) (a : Nat)
    (hall : due1hAllowed prefs = true)
    (hsup : quietSuppressed prefs nowHM = true) :
    sendTaskDue prefs nowHM a 1 = SendOutcome.suppressedQuiet := by
  have hb := prefsBlock1h_of_allowed prefs hall
  simp [sendTaskDue, hb, sendToUser, hsup]

theorem checkTaskDueTick_emits24 (prefs : Option NotificationPrefs)
    (nowHM : String) (a : Nat) (now : Int) (t : RTask) (due : Int)
    (hdue : t.dueDate = some due)
    (hst : t.status = TaskStatus.pending ∨ t.status = TaskStatus.inProgress)
    (hall : due24hAllowed prefs = true) (hf : t.notified24h = false)
    (hw : in24hWindow due now = true) :
    (checkTaskDueTick prefs nowHM a now t).2 =
      [(24, sendTaskDue prefs nowHM a 24)] := by
  have hq := dueQueryMatch_of t due hdue hst
  have hw1 : in1hWindow due now = false := windows_disjoint due now hw
  unfold checkTaskDueTick
  have h24 : (due24hAllowed prefs && !t.notified24h && in24hWindow due now)
      = true := by simp [hall, hf, hw]
  have h1 : (due1hAllowed prefs && !t.notified1h && in1hWindow due now)
      = false := by simp [hw1]
  simp [hq, hdue, h24, h1]

theorem checkTaskDueTick_emits1 (prefs : Option NotificationPrefs)
    (nowHM : String) (a : Nat) (now : Int) (t : RTask) (due : Int)
    (hdue : t.dueDate = some due)
    (hst : t.status = TaskStatus.pending ∨ t.status = TaskStatus.inProgress)
    (hall : due1hAllowed prefs = true) (hf : t.notified1h = false)
    (hw : in1hWindow due now = true) :
    (checkTaskDueTick prefs nowHM a now t).2 =
      [(1, sendTaskDue prefs nowHM a 1)] := by
  have hq := dueQueryMatch_of t due hdue hst
  have hw24 : in24hWindow due now = false := by
    cases h : in24hWindow due now with
    | false => rfl
    | true => rw [windows_disjoint due now h] at hw; cases hw
  unfold checkTaskDueTick
  have h24 : (due24hAllowed prefs && !t.notified24h && in24hWindow due now)
      = false := by simp [hw24]
  have h1 : (due1hAllowed prefs && !t.notified1h && in1hWindow due now)
      = true := by simp [hall, hf, hw]
  simp [hq, hdue, h24, h1]

/-- C10: when a tick evaluates a task inside its 24h (resp. 1h) due window
with the matching toggle enabled but quiet hours suppress the actual push
inside sendToUser, the tick still emits exactly that one suppressed send,
still sets the notified flag, and no later tick sequence ever emits that due
reminder again: suppression is permanent, not retried. -/
theorem C10_suppressed_send_still_sets_flag (prefs : Option NotificationPrefs)
    (a : Nat) (now : Int) (hm : String) (t : RTask) (due : Int)
    (rest : List (Int × String))
    (hdue : t.dueDate = some due)
    (hst : t.status = TaskStatus.pending ∨ t.status = TaskStatus.inProgress)
    (h24a : due24hAllowed prefs = true) (h1a : due1hAllowed prefs = true)
    (hf24 : t.notified24h = false) (hf1 : t.notified1h = false)
    (hsup : quietSuppressed prefs hm = true) :
    (in24hWindow due now = true →
      (checkTaskDueTick prefs hm a now t).2 =
        [(24, SendOutcome.suppressedQuiet)] ∧
      ((checkTaskDueTick prefs hm a now t).1).notified24h = true ∧
      countKind 24 (checkTaskDueTicks prefs a rest
        ((checkTaskDueTick prefs hm a now t).1)).2 = 0) ∧
    (in1hWindow due now = true →
      (checkTaskDueTick prefs hm a now t).2 =
        [(1, SendOutcome.suppressedQuiet)] ∧
      ((checkTaskDueTick prefs hm a now t).1).notified1h = true ∧
      countKind 1 (checkTaskDueTicks prefs a rest
        ((checkTaskDueTick prefs hm a now t).1)).2 = 0) := by
  constructor
  · intro hw
    have hflag := checkTaskDueTick_fire24 prefs hm a now t due hdue hst h24a
      hf24 hw
    refine ⟨?_, hflag, ?_⟩
    · rw [checkTaskDueTick_emits24 prefs hm a now t due hdue hst h24a hf24 hw,
        sendTaskDue_24_suppressed prefs hm a h24a hsup]
    · rw [checkTaskDueTicks_count24 prefs a rest _, hflag]
      simp
  · intro hw
    have hflag := checkTaskDueTick_fire1 prefs hm a now t due hdue hst h1a
      hf1 hw
    refine ⟨?_, hflag, ?_⟩
    · rw [checkTaskDueTick_emits1 prefs hm a now t due hdue hst h1a hf1 hw,
        sendTaskDue_1_suppressed prefs hm a h1a hsup]
    · rw [checkTaskDueTicks_count1 prefs a rest _, hflag]
      simp

/-- Witness for C10: quiet hours 22:00 - 07:00 at 23:00, a tick inside the
24h window of `sampleDueTask`, one later tick also inside that window. -/
theorem C10_suppressed_send_still_sets_flag_witness :
    (checkTaskDueTick (some quietPrefs2207) "23:00" 1 113600000
      sampleDueTask).2 = [(24, SendOutcome.suppressedQuiet)] ∧
    ((checkTaskDueTick (some quietPrefs2207) "23:00" 1 113600000
      sampleDueTask).1).notified24h = true ∧
    countKind 24 (checkTaskDueTicks (some quietPrefs2207) 1
      [(114000000, "23:10")]
      ((checkTaskDueTick (some quietPrefs2207) "23:00" 1 113600000
        sampleDueTask).1)).2 = 0 :=
  (C10_suppressed_send_still_sets_flag (some quietPrefs2207) 1 113600000
      "23:00" sampleDueTask 200000000 [(114000000, "23:10")] rfl (Or.inl rfl)
      rfl rfl rfl rfl (by decide)).1 (by decide)

/-- The `dueDate` object of one google.classroom courseWork item; `none`
models a missing JS field, `some 0` a present zero (falsy under `||`). -/
structure WorkDueDate where
  year : Option Int
  month : Option Int
  day : Option Int
deriving DecidableEq, Repr

/-- The `dueTime` object of one courseWork item. -/
structure WorkDueTime where
  hours : Option Int
  minutes : Option Int
deriving DecidableEq, Repr

/-- One upstream courseWork item as read by syncTasks. -/
structure CourseWork where
  id : String
  title : Option String
  description : Option String
  dueDate : Option WorkDueDate
  dueTime : Option WorkDueTime
deriving DecidableEq, Repr

/-- JS `x || d` on a nullable number: `null`/`undefined` and `0` fall through
to the default. -/
def jsOr (x : Option Int) (d : Int) : Int :=
  match x with
  | none => d
  | some v => if v == 0 then d else v

/-- JS `s || d` on a nullable string: `null`/`undefined` and `""` fall
through to the default. -/
def jsOrStr (x : Option String) (d : String) : String :=
  match x with
  | none => d
  | some s => if s == "" then d else s

/-- The argument record of the `new Date(year, monthIndex, day, hours,
minutes)` constructor call built at classroom.service.ts lines 160-166
(field-level view; no calendar arithmetic is needed for the claims). -/
structure SimpleDate where
  year : Int
  monthIndex : Int
  day : Int
  hours : Int
  minutes : Int
deriving DecidableEq, Repr

/-- Comparison of two in-range date-argument records; for in-range fields the
(year, monthIndex, day, hours, minutes) lexicographic order coincides with
the millisecond order JS uses to compare the resulting Dates. -/
def SimpleDate.before (a b : SimpleDate) : Bool :=
  decide (a.year < b.year) ||
  (a.year == b.year && (decide (a.monthIndex < b.monthIndex) ||
    (a.monthIndex == b.monthIndex && (decide (a.day < b.day) ||
      (a.day == b.day && (decide (a.hours < b.hours) ||
        (a.hours == b.hours && decide (a.minutes < b.minutes))))))))

/-- Due-date parsing in syncTasks (classroom.service.ts lines 157-167): the
task gets a null due date when `work.dueDate` is wholly absent; otherwise
`new Date(dueDate.year || 2024, (dueDate.month || 1) - 1, dueDate.day || 1,
dueTime?.hours || 23, dueTime?.minutes || 59)`. -/
def parseDueDate (dd : Option WorkDueDate) (dt : Option WorkDueTime) :
    Option SimpleDate :=
  match dd with
  | none => none
  | some d =>
    some { year := jsOr d.year 2024
           monthIndex := jsOr d.month 1 - 1
           day := jsOr d.day 1
           hours := jsOr (dt.bind WorkDueTime.hours) 23
           minutes := jsOr (dt.bind WorkDueTime.minutes) 59 }

/-- Task priority values of the Prisma schema. -/
inductive Priority where
  | low
  | medium
  | high
deriving DecidableEq, Repr

/-- A Task row as created by syncTasks. -/
structure STask where
  userId : String
  title : String
  description : Option String
  isFromClassroom : Bool
  googleTaskId : Option String
  courseId : Option String
  dueDate : Option SimpleDate
  status : TaskStatus
  priority : Priority
  notified24h : Bool
  notified1h : Bool
deriving DecidableEq, Repr

/-- The `prisma.task.create` call of syncTasks (classroom.service.ts lines
169-182).  `deadline` is `new Date(Date.now() + 86400000)` viewed as a
SimpleDate; status and notified flags take their schema defaults. -/
def createTaskFromWork (userId courseId : String) (deadline : SimpleDate)
    (w : CourseWork) : STask :=
  let due := parseDueDate w.dueDate w.dueTime
  { userId := userId
    title := jsOrStr w.title "Untitled Task"
    description := w.description
    isFromClassroom := true
    googleTaskId := some w.id
    courseId := some courseId
    dueDate := due
    status := TaskStatus.pending
    priority :=
      match due with
      | some d => if d.before deadline then Priority.high else Priority.medium
      | none => Priority.medium
    notified24h := false
    notified1h := false }

/-- A Course row: the fields read by syncTasks and written by syncCourses.
`sectionName` renders the prisma `section` column (a Lean keyword). -/
structure CourseRow where
  id : String
  userId : String
  googleCourseId : String
  name : String
  sectionName : Option String
  description : Option String
  teacherName : String
  syncEnabled : Bool
deriving DecidableEq, Repr

/-- `prisma.task.findFirst({ where: { userId, googleTaskId: work.id } })`
(classroom.service.ts lines 149-154). -/
def taskExists (tasks : List STask) (userId gid : String) : Bool :=
  tasks.any (fun t => t.userId == userId && t.googleTaskId == some gid)

/-- The inner loop of syncTasks over one course's coursework: create each
item not yet present by (userId, googleTaskId).  Returns the task table
after the loop and the created tasks in order. -/
def syncCourseWorks (userId courseId : String) (deadline : SimpleDate) :
    List CourseWork → List STask → List STask × List STask
  | [], tasks => (tasks, [])
  | w :: ws, tasks =>
    if taskExists tasks userId w.id then
      syncCourseWorks userId courseId deadline ws tasks
    else
      let t := createTaskFromWork userId courseId deadline w
      let r := syncCourseWorks userId courseId deadline ws (tasks ++ [t])
      (r.1, t :: r.2)

/-- The per-course loop of syncTasks with its try/catch (classroom.service.ts
lines 137-190): a failed coursework fetch for one course is caught, logged
and skipped, and the loop continues with the remaining courses.  `upstream`
maps a googleCourseId to its fetch result. -/
def syncTasksLoop (userId : String)
    (upstream : String → Except String (List CourseWork))
    (deadline : SimpleDate) :
    List CourseRow → List STask → List STask × List STask
  | [], tasks => (tasks, [])
  | c :: cs, tasks =>
    match upstream c.googleCourseId with
    | .error _ => syncTasksLoop userId upstream deadline cs tasks
    | .ok works =>
      let r1 := syncCourseWorks userId c.id deadline works tasks
      let r2 := syncTasksLoop userId upstream deadline cs r1.1
      (r2.1, r1.2 ++ r2.2)

/-- `ClassroomService.syncTasks` (classroom.service.ts lines 127-193): select
the user's courses with syncEnabled, then run the per-course loop over the
task table. -/
def syncTasks (userId : String) (courses : List CourseRow)
    (upstream : String → Except String (List CourseWork))
    (deadline : SimpleDate) (tasks : List STask) :
    List STask × List STask :=
  syncTasksLoop userId upstream deadline
    (courses.filter (fun c => c.userId == userId && c.syncEnabled)) tasks

theorem taskExists_append (a b : List STask) (u g : String) :
    taskExists (a ++ b) u g = (taskExists a u g || taskExists b u g) := by
  simp [taskExists, List.any_append]

theorem taskExists_create (u cid g : String) (dl : SimpleDate)
    (w : CourseWork) (hg : w.id = g) :
    taskExists [createTaskFromWork u cid dl w] u g = true := by
  simp [taskExists, createTaskFromWork, hg]

theorem syncCourseWorks_fst (u cid : String) (dl : SimpleDate) :
    ∀ (ws : List CourseWork) (ts : List STask),
      (syncCourseWorks u cid dl ws ts).1 =
        ts ++ (syncCourseWorks u cid dl ws ts).2
  | [], ts => by simp [syncCourseWorks]
  | w :: ws, ts => by
    unfold syncCourseWorks
    cases h : taskExists ts u w.id with
    | true =>
      simp only [h, if_true]
      exact syncCourseWorks_fst u cid dl ws ts
    | false =>
      simp only [h, Bool.false_eq_true, if_false]
      have ih := syncCourseWorks_fst u cid dl ws
        (ts ++ [createTaskFromWork u cid dl w])
      rw [ih]
      simp

theorem syncCourseWorks_covers (u cid : String) (dl : SimpleDate) :
    ∀ (ws : List CourseWork) (ts : List STask) (w : CourseWork), w ∈ ws →
      taskExists (syncCourseWorks u cid dl ws ts).1 u w.id = true
  | [], _, w, hw => absurd hw (List.not_mem_nil w)
  | w0 :: ws, ts, w, hw => by
    unfold syncCourseWorks
    rcases List.mem_cons.mp hw with rfl | hw
    · cases h : taskExists ts u w.id with
      | true =>
        simp only [h, if_true]
        rw [syncCourseWorks_fst u cid dl ws ts, taskExists_append]
        simp [h]
      | false =>
        simp only [h, Bool.false_eq_true, if_false]
        rw [syncCourseWorks_fst u cid dl ws
          (ts ++ [createTaskFromWork u cid dl w]), taskExists_append,
          taskExists_append]
        rw [taskExists_create u cid w.id dl w rfl]
        simp
    · cases h : taskExists ts u w0.id with
      | true =>
        simp only [h, if_true]
        exact syncCourseWorks_covers u cid dl ws ts w hw
      | false =>
        simp only [h, Bool.false_eq_true, if_false]
        exact syncCourseWorks_covers u cid dl ws
          (ts ++ [createTaskFromWork u cid dl w0]) w hw

theorem syncCourseWorks_noop (u cid : String) (dl : SimpleDate) :
    ∀ (ws : List CourseWork) (ts : List STask),
      (∀ w ∈ ws, taskExists ts u w.id = true) →
      syncCourseWorks u cid dl ws ts = (ts, [])
  | [], _, _ => rfl
  | w :: ws, ts, h => by
    unfold syncCourseWorks
    rw [h w (List.mem_cons_self w ws)]
    simp only [if_true]
    exact syncCourseWorks_noop u cid dl ws ts
      (fun w2 hw2 => h w2 (List.mem_cons_of_mem w hw2))

theorem syncTasksLoop_fst (u : String)
    (up : String → Except String (List CourseWork)) (dl : SimpleDate) :
    ∀ (cs : List CourseRow) (ts : List STask),
      (syncTasksLoop u up dl cs ts).1 =
        ts ++ (syncTasksLoop u up dl cs ts).2
  | [], ts => by simp [syncTasksLoop]
  | c :: cs, ts => by
    unfold syncTasksLoop
    cases hup : up c.googleCourseId with
    | error e => exact syncTasksLoop_fst u up dl cs ts
    | ok works =>
      dsimp only
      rw [syncTasksLoop_fst u up dl cs (syncCourseWorks u c.id dl works ts).1,
        syncCourseWorks_fst u c.id dl works ts]
      simp

theorem syncTasksLoop_covers (u : String)
    (up : String → Except String (List CourseWork)) (dl : SimpleDate) :
    ∀ (cs : List CourseRow) (ts : List STask) (c : CourseRow)
      (works : List CourseWork) (w : CourseWork),
      c ∈ cs → up c.googleCourseId = .ok works → w ∈ works →
      taskExists (syncTasksLoop u up dl cs ts).1 u w.id = true
  | [], _, c, _, _, hc, _, _ => absurd hc (List.not_mem_nil c)
  | c0 :: cs, ts, c, works, w, hc, hok, hw => by
    unfold syncTasksLoop
    rcases List.mem_cons.mp hc with rfl | hc
    · rw [hok]
      dsimp only
      rw [syncTasksLoop_fst u up dl cs (syncCourseWorks u c.id dl works ts).1,
        taskExists_append]
      rw [syncCourseWorks_covers u c.id dl works ts w hw]
      simp
    · cases hup : up c0.googleCourseId with
      | error e => exact syncTasksLoop_covers u up dl cs ts c works w hc hok hw
      | ok works0 =>
        dsimp only
        exact syncTasksLoop_covers u up dl cs
          (syncCourseWorks u c0.id dl works0 ts).1 c works w hc hok hw

theorem syncTasksLoop_noop (u : String)
    (up : String → Except String (List CourseWork)) (dl : SimpleDate) :
    ∀ (cs : List CourseRow) (ts : List STask),
      (∀ c ∈ cs, ∀ works, up c.googleCourseId = .ok works →
        ∀ w ∈ works, taskExists ts u w.id = true) →
      syncTasksLoop u up dl cs ts = (ts, [])
  | [], _, _ => rfl
  | c :: cs, ts, h => by
    unfold syncTasksLoop
    cases hup : up c.googleCourseId with
    | error e =>
      exact syncTasksLoop_noop u up dl cs ts
        (fun c2 hc2 => h c2 (List.mem_cons_of_mem c hc2))
    | ok works =>
      have hcw := syncCourseWorks_noop u c.id dl works ts
        (h c (List.mem_cons_self c cs) works hup)
      dsimp only
      rw [hcw]
      have hrest := syncTasksLoop_noop u up dl cs ts
        (fun c2 hc2 => h c2 (List.mem_cons_of_mem c hc2))
      rw [hrest]
      rfl

/-- C2: syncTasks is create-only and idempotent on an unchanged upstream
assignment list.  The first conjunct says a pass only appends the created
tasks to the existing table (no existing upstream-linked task is ever
overwritten); the second and third say a second pass over the same upstream
creates zero new Task rows and leaves the table unchanged. -/
theorem C2_sync_tasks_create_only (u : String) (courses : List CourseRow)
    (up : String → Except String (List CourseWork)) (dl : SimpleDate)
    (ts : List STask) :
    (syncTasks u courses up dl ts).1 = ts ++ (syncTasks u courses up dl ts).2 ∧
    (syncTasks u courses up dl ((syncTasks u courses up dl ts).1)).2 = [] ∧
    (syncTasks u courses up dl ((syncTasks u courses up dl ts).1)).1 =
      (syncTasks u courses up dl ts).1 := by
  unfold syncTasks
  have hnoop := syncTasksLoop_noop u up dl
    (courses.filter (fun c => c.userId == u && c.syncEnabled))
    (syncTasksLoop u up dl
      (courses.filter (fun c => c.userId == u && c.syncEnabled)) ts).1
    (fun c hc works hok w hw =>
      syncTasksLoop_covers u up dl
        (courses.filter (fun c => c.userId == u && c.syncEnabled))
        ts c works w hc hok hw)
  refine ⟨syncTasksLoop_fst u up dl _ ts, ?_, ?_⟩
  · rw [hnoop]
  · rw [hnoop]

/-- C7: a course whose coursework fetch throws is skipped entirely — the pass
result (both the task table and the created list) is the same as if that
course were not in the list, so the remaining sync-enabled courses are still
imported and the error never escapes syncTasks (which is total). -/
theorem C7_course_failure_isolated (u : String)
    (up : String → Except String (List CourseWork)) (dl : SimpleDate)
    (c : CourseRow) (msg : String)
    (hfail : up c.googleCourseId = Except.error msg) :
    ∀ (courses1 courses2 : List CourseRow) (ts : List STask),
      syncTasks u (courses1 ++ c :: courses2) up dl ts =
        syncTasks u (courses1 ++ courses2) up dl ts := by
  have hloop : ∀ (pre post : List CourseRow) (ts : List STask),
      syncTasksLoop u up dl (pre ++ c :: post) ts =
        syncTasksLoop u up dl (pre ++ post) ts := by
    intro pre
    induction pre with
    | nil =>
      intro post ts
      simp only [List.nil_append]
      conv_lhs => unfold syncTasksLoop
      rw [hfail]
    | cons p pre ih =>
      intro post ts
      simp only [List.cons_append]
      unfold syncTasksLoop
      cases hup : up p.googleCourseId with
      | error e => exact ih post ts
      | ok works =>
        dsimp only
        rw [ih post (syncCourseWorks u p.id dl works ts).1]
  intro courses1 courses2 ts
  unfold syncTasks
  rw [List.filter_append, List.filter_append, List.filter_cons]
  by_cases hc : (c.userId == u && c.syncEnabled) = true
  · simp only [hc, if_true]
    exact hloop _ _ ts
  · have hcf : (c.userId == u && c.syncEnabled) = false := by
      cases hb : (c.userId == u && c.syncEnabled) with
      | false => rfl
      | true => exact absurd hb hc
    simp [hcf]

/-- Three concrete sync-enabled courses of user u1. -/
def courseG1 : CourseRow :=
  { id := "l1", userId := "u1", googleCourseId := "g1", name := "Algebra"
    sectionName := none, description := none, teacherName := "T1"
    syncEnabled := true }

def courseG2 : CourseRow :=
  { id := "l2", userId := "u1", googleCourseId := "g2", name := "Biology"
    sectionName := none, description := none, teacherName := "T2"
    syncEnabled := true }

def courseG3 : CourseRow :=
  { id := "l3", userId := "u1", googleCourseId := "g3", name := "Chemistry"
    sectionName := none, description := none, teacherName := "T3"
    syncEnabled := true }

/-- A sample sync-moment deadline (now + 24h viewed as a SimpleDate). -/
def deadline0 : SimpleDate :=
  { year := 2026, monthIndex := 9, day := 12, hours := 10, minutes := 0 }

/-- A courseWork item with no due date at all. -/
def workNoDate : CourseWork :=
  { id := "w1", title := some "Essay", description := none
    dueDate := none, dueTime := none }

/-- A courseWork item with a date but no time. -/
def workDateOnly : CourseWork :=
  { id := "w2", title := some "Lab report", description := none
    dueDate := some { year := some 2025, month := some 3, day := some 14 }
    dueTime := none }

/-- Upstream fetch map where course g2 throws and g1/g3 each return one
assignment. -/
def upstreamG2Fails : String → Except String (List CourseWork) :=
  fun gid =>
    if gid == "g1" then .ok [workNoDate]
    else if gid == "g2" then .error "fetch failed"
    else if gid == "g3" then .ok [workDateOnly]
    else .ok []

/-- Witness for C7: with course g2 throwing, a pass over [g1, g2, g3] equals
the pass over [g1, g3] — the two healthy courses are still imported. -/
theorem C7_course_failure_isolated_witness :
    syncTasks "u1" [courseG1, courseG2, courseG3] upstreamG2Fails deadline0
        [] =
      syncTasks "u1" [courseG1, courseG3] upstreamG2Fails deadline0 [] :=
  C7_course_failure_isolated "u1" upstreamG2Fails deadline0 courseG2
    "fetch failed" rfl [courseG1] [courseG3] []

/-- C8 counterexample: a wholly absent upstream due date produces a task with
a null due date, not a due date defaulting to "today"; and a present but
empty dueDate object defaults to 2024-01-01 23:59, also not "today". -/
theorem C8_counterexample :
    (createTaskFromWork "u1" "l1" deadline0 workNoDate).dueDate = none ∧
    parseDueDate (some { year := none, month := none, day := none }) none =
      some { year := 2024, monthIndex := 0, day := 1, hours := 23
             minutes := 59 } :=
  ⟨rfl, rfl⟩

/-- C8 amended: for a newly imported assignment, the created task's due date
is null when the upstream dueDate object is wholly absent; when the dueDate
object is present, the time-of-day defaults to 23:59 if the upstream dueTime
is absent, and missing (or zero) year/month/day fields default to year 2024,
January, day 1 — never to "today". -/
theorem C8_due_date_defaults (u cid : String) (dl : SimpleDate)
    (w : CourseWork) (d : WorkDueDate) :
    (w.dueDate = none → (createTaskFromWork u cid dl w).dueDate = none) ∧
    (w.dueDate = some d → w.dueTime = none →
      (createTaskFromWork u cid dl w).dueDate =
        some { year := jsOr d.year 2024, monthIndex := jsOr d.month 1 - 1
               day := jsOr d.day 1, hours := 23, minutes := 59 }) := by
  constructor
  · intro h
    simp [createTaskFromWork, parseDueDate, h]
  · intro hd ht
    simp [createTaskFromWork, parseDueDate, hd, ht, jsOr, Option.bind]

/-- Witness for the amended C8 theorem at two concrete assignments. -/
theorem C8_due_date_defaults_witness :
    (createTaskFromWork "u1" "l1" deadline0 workNoDate).dueDate = none ∧
    (createTaskFromWork "u1" "l1" deadline0 workDateOnly).dueDate =
      some { year := 2025, monthIndex := 2, day := 14, hours := 23
             minutes := 59 } := by
  constructor
  · exact (C8_due_date_defaults "u1" "l1" deadline0 workNoDate
      { year := none, month := none, day := none }).1 rfl
  · have h := (C8_due_date_defaults "u1" "l1" deadline0 workDateOnly
      { year := some 2025, month := some 3, day := some 14 }).2 rfl rfl
    simpa [jsOr] using h

/-- One upstream course as consumed by syncCourses, with the teacher name
already resolved (the try/catch around courses.teachers.list yields "" when
the teacher fetch fails). -/
structure GCourse where
  id : String
  name : Option String
  sectionName : Option String
  description : Option String
  teacherName : String
deriving DecidableEq, Repr

/-- The composite unique-key test `userId_googleCourseId` of the upsert. -/
def courseKeyMatches (u gid : String) (r : CourseRow) : Bool :=
  r.userId == u && r.googleCourseId == gid

/-- The `update` payload of the course upsert (classroom.service.ts lines
105-110). -/
def updCourseFields (c : GCourse) (r : CourseRow) : CourseRow :=
  { r with name := jsOrStr c.name "Unnamed Course"
           sectionName := c.sectionName
           description := c.description
           teacherName := c.teacherName }

/-- The row created by the course upsert (classroom.service.ts lines
111-118).  The local row id of a created row is modelled deterministically
(it is opaque in the source and no verified property depends on it); created
rows get the schema default syncEnabled = true. -/
def newCourseRow (u : String) (c : GCourse) : CourseRow :=
  { id := "local-" ++ c.id, userId := u, googleCourseId := c.id
    name := jsOrStr c.name "Unnamed Course"
    sectionName := c.sectionName, description := c.description
    teacherName := c.teacherName, syncEnabled := true }

/-- `prisma.course.upsert` keyed (userId, googleCourseId)
(classroom.service.ts lines 98-119): update the row with this unique key when
present, else create it. -/
def upsertCourse (u : String) (rows : List CourseRow) (c : GCourse) :
    List CourseRow :=
  if rows.any (courseKeyMatches u c.id) then
    rows.map (fun r =>
      if courseKeyMatches u c.id r then updCourseFields c r else r)
  else rows ++ [newCourseRow u c]

/-- `ClassroomService.syncCourses` (classroom.service.ts lines 72-125) acting
on the course table: upsert every upstream active course in order. -/
def syncCourses (u : String) (upCourses : List GCourse)
    (rows : List CourseRow) : List CourseRow :=
  upCourses.foldl (upsertCourse u) rows

/-- At most one local Course row per (userId, googleCourseId): the schema's
composite unique constraint. -/
def keysNodup (rows : List CourseRow) : Prop :=
  (rows.map (fun r => (r.userId, r.googleCourseId))).Nodup

/-- The course's row exists and already carries the upstream field values. -/
def courseSynced (u : String) (c : GCourse) (rows : List CourseRow) : Prop :=
  rows.any (courseKeyMatches u c.id) = true ∧
  ∀ r ∈ rows, courseKeyMatches u c.id r = true → updCourseFields c r = r

theorem updCourseFields_key (c : GCourse) (r : CourseRow) (u gid : String) :
    courseKeyMatches u gid (updCourseFields c r) = courseKeyMatches u gid r :=
  rfl

theorem updCourseFields_idem (c : GCourse) (r : CourseRow) :
    updCourseFields c (updCourseFields c r) = updCourseFields c r := rfl

theorem newCourseRow_matches (u : String) (c : GCourse) :
    courseKeyMatches u c.id (newCourseRow u c) = true := by
  simp [courseKeyMatches, newCourseRow]

theorem updCourseFields_newRow (u : String) (c : GCourse) :
    updCourseFields c (newCourseRow u c) = newCourseRow u c := rfl

theorem list_map_self {α : Type} (l : List α) (f : α → α)
    (h : ∀ a ∈ l, f a = a) : l.map f = l := by
  induction l with
  | nil => rfl
  | cons a l ih =>
    simp only [List.map_cons, h a (List.mem_cons_self a l),
      ih (fun b hb => h b (List.mem_cons_of_mem a hb))]

theorem upsertCourse_pos (u : String) (rows : List CourseRow) (c : GCourse)
    (h : rows.any (courseKeyMatches u c.id) = true) :
    upsertCourse u rows c = rows.map (fun r =>
      if courseKeyMatches u c.id r then updCourseFields c r else r) := by
  unfold upsertCourse
  rw [if_pos h]

theorem upsertCourse_neg (u : String) (rows : List CourseRow) (c : GCourse)
    (h : rows.any (courseKeyMatches u c.id) = false) :
    upsertCourse u rows c = rows ++ [newCourseRow u c] := by
  unfold upsertCourse
  rw [if_neg (by simp [h])]

theorem upsertCourse_any (u gid : String) (rows : List CourseRow)
    (c : GCourse) :
    (rows.map (fun r =>
        if courseKeyMatches u c.id r then updCourseFields c r else r)).any
      (courseKeyMatches u gid) = rows.any (courseKeyMatches u gid) := by
  rw [List.any_map]
  refine congrArg (rows.any ·) ?_
  funext r
  by_cases hm : courseKeyMatches u c.id r = true <;>
    simp [Function.comp, hm, updCourseFields_key]

theorem upsertCourse_nodup (u : String) (rows : List CourseRow) (c : GCourse)
    (h : keysNodup rows) : keysNodup (upsertCourse u rows c) := by
  cases hany : rows.any (courseKeyMatches u c.id) with
  | true =>
    rw [upsertCourse_pos u rows c hany]
    unfold keysNodup
    rw [List.map_map]
    have hkeys : ((fun r => (r.userId, r.googleCourseId)) ∘ fun r =>
        if courseKeyMatches u c.id r then updCourseFields c r else r) =
        fun r : CourseRow => (r.userId, r.googleCourseId) := by
      funext r
      by_cases hm : courseKeyMatches u c.id r = true <;>
        simp [Function.comp, hm, updCourseFields]
    rw [hkeys]
    exact h
  | false =>
    rw [upsertCourse_neg u rows c hany]
    unfold keysNodup
    rw [List.map_append]
    have hnot : (u, c.id) ∉
        rows.map (fun r => (r.userId, r.googleCourseId)) := by
      intro hmem
      rcases List.mem_map.mp hmem with ⟨r, hr, hkey⟩
      have hmatch : courseKeyMatches u c.id r = true := by
        have h1 : r.userId = u := congrArg Prod.fst hkey
        have h2 : r.googleCourseId = c.id := congrArg Prod.snd hkey
        simp [courseKeyMatches, h1, h2]
      have := List.any_eq_false.mp hany r hr
      exact this hmatch
    refine List.Nodup.append h (List.nodup_singleton _) ?_
    intro x hx hx2
    rcases List.mem_singleton.mp hx2 with rfl
    simp only [List.map_cons, List.map_nil, newCourseRow] at hx ⊢
    exact hnot hx

theorem upsertCourse_synced (u : String) (rows : List CourseRow)
    (c : GCourse) : courseSynced u c (upsertCourse u rows c) := by
  cases hany : rows.any (courseKeyMatches u c.id) with
  | true =>
    rw [upsertCourse_pos u rows c hany]
    constructor
    · rw [upsertCourse_any]
      exact hany
    · intro r hr hm
      rcases List.mem_map.mp hr with ⟨r0, _, rfl⟩
      by_cases h0 : courseKeyMatches u c.id r0 = true
      · rw [if_pos h0]
        exact updCourseFields_idem c r0
      · rw [if_neg h0] at hm
        exact absurd hm h0
  | false =>
    rw [upsertCourse_neg u rows c hany]
    constructor
    · rw [List.any_append]
      simp [newCourseRow_matches]
    · intro r hr hm
      rcases List.mem_append.mp hr with hr | hr
      · exact absurd hm (List.any_eq_false.mp hany r hr)
      · rcases List.mem_singleton.mp hr with rfl
        exact updCourseFields_newRow u c

theorem upsertCourse_preserve (u : String) (rows : List CourseRow)
    (c c2 : GCourse) (hne : c.id ≠ c2.id) (h : courseSynced u c rows) :
    courseSynced u c (upsertCourse u rows c2) := by
  obtain ⟨hany, hfields⟩ := h
  cases h2 : rows.any (courseKeyMatches u c2.id) with
  | true =>
    rw [upsertCourse_pos u rows c2 h2]
    constructor
    · rw [upsertCourse_any]
      exact hany
    · intro r hr hm
      rcases List.mem_map.mp hr with ⟨r0, hr0, rfl⟩
      by_cases h0 : courseKeyMatches u c2.id r0 = true
      · rw [if_pos h0] at hm ⊢
        rw [updCourseFields_key] at hm
        have hc : r0.googleCourseId = c.id := by
          simp only [courseKeyMatches, Bool.and_eq_true, beq_iff_eq] at hm
          exact hm.2
        have hc2 : r0.googleCourseId = c2.id := by
          simp only [courseKeyMatches, Bool.and_eq_true, beq_iff_eq] at h0
          exact h0.2
        exact absurd (hc ▸ hc2) hne
      · rw [if_neg h0] at hm ⊢
        exact hfields r0 hr0 hm
  | false =>
    rw [upsertCourse_neg u rows c2 h2]
    constructor
    · rw [List.any_append, hany]
      rfl
    · intro r hr hm
      rcases List.mem_append.mp hr with hr | hr
      · exact hfields r hr hm
      · rcases List.mem_singleton.mp hr with rfl
        have : (newCourseRow u c2).googleCourseId = c.id := by
          simp only [courseKeyMatches, Bool.and_eq_true, beq_iff_eq] at hm
          exact hm.2
        simp only [newCourseRow] at this
        exact absurd this.symm hne

theorem upsertCourse_noop (u : String) (rows : List CourseRow) (c : GCourse)
    (h : courseSynced u c rows) : upsertCourse u rows c = rows := by
  obtain ⟨hany, hfields⟩ := h
  rw [upsertCourse_pos u rows c hany]
  refine list_map_self rows _ ?_
  intro r hr
  by_cases hm : courseKeyMatches u c.id r = true
  · rw [if_pos hm]
    exact hfields r hr hm
  · rw [if_neg hm]

theorem syncCourses_preserve (u : String) (c : GCourse) :
    ∀ (L : List GCourse) (rows : List CourseRow),
      c.id ∉ L.map GCourse.id → courseSynced u c rows →
      courseSynced u c (syncCourses u L rows)
  | [], _, _, h => h
  | c2 :: L, rows, hnotin, h => by
    have hne : c.id ≠ c2.id := by
      intro he
      exact hnotin (by simp [he])
    have hnotin2 : c.id ∉ L.map GCourse.id := by
      intro hmem
      exact hnotin (by simp [List.mem_cons_of_mem, hmem])
    exact syncCourses_preserve u c L (upsertCourse u rows c2) hnotin2
      (upsertCourse_preserve u rows c c2 hne h)

theorem syncCourses_invariant (u : String) :
    ∀ (L : List GCourse) (rows : List CourseRow),
      (L.map GCourse.id).Nodup → keysNodup rows →
      keysNodup (syncCourses u L rows) ∧
      ∀ c ∈ L, courseSynced u c (syncCourses u L rows)
  | [], rows, _, hrows => ⟨hrows, by simp⟩
  | c :: L, rows, hL, hrows => by
    rw [List.map_cons, List.nodup_cons] at hL
    obtain ⟨hnotin, hL2⟩ := hL
    have hrows1 := upsertCourse_nodup u rows c hrows
    obtain ⟨hk, hall⟩ :=
      syncCourses_invariant u L (upsertCourse u rows c) hL2 hrows1
    refine ⟨hk, ?_⟩
    intro c2 hc2
    rcases List.mem_cons.mp hc2 with rfl | hc2
    · exact syncCourses_preserve u c2 L (upsertCourse u rows c2) hnotin
        (upsertCourse_synced u rows c2)
    · exact hall c2 hc2

theorem syncCourses_noop (u : String) :
    ∀ (L : List GCourse) (rows : List CourseRow),
      (∀ c ∈ L, courseSynced u c rows) → syncCourses u L rows = rows
  | [], _, _ => rfl
  | c :: L, rows, h => by
    have h1 := upsertCourse_noop u rows c (h c (List.mem_cons_self c L))
    show syncCourses u L (upsertCourse u rows c) = rows
    rw [h1]
    exact syncCourses_noop u L rows
      (fun c2 hc2 => h c2 (List.mem_cons_of_mem c hc2))

/-- C5: syncCourses is idempotent.  Starting from any course table satisfying
the composite unique constraint, a pass over an upstream course list (whose
Google course ids are distinct, as the upstream list of courses guarantees)
preserves uniqueness, and a second pass over the same upstream list leaves
the table exactly as the first pass left it — no duplicate rows, identical
field values. -/
theorem C5_sync_courses_idempotent (u : String) (L : List GCourse)
    (rows : List CourseRow) (hL : (L.map GCourse.id).Nodup)
    (hrows : keysNodup rows) :
    keysNodup (syncCourses u L rows) ∧
    syncCourses u L (syncCourses u L rows) = syncCourses u L rows := by
  obtain ⟨hk, hall⟩ := syncCourses_invariant u L rows hL hrows
  exact ⟨hk, syncCourses_noop u L (syncCourses u L rows) hall⟩

/-- Two concrete upstream courses with distinct ids. -/
def gcourseMath : GCourse :=
  { id := "g1", name := some "Math", sectionName := some "A"
    description := none, teacherName := "Prof X" }

def gcourseBio : GCourse :=
  { id := "g2", name := none, sectionName := none
    description := some "Cells", teacherName := "" }

/-- Witness for C5 on a concrete upstream list over an empty table. -/
theorem C5_sync_courses_idempotent_witness :
    keysNodup (syncCourses "u1" [gcourseMath, gcourseBio] []) ∧
    syncCourses "u1" [gcourseMath, gcourseBio]
        (syncCourses "u1" [gcourseMath, gcourseBio] []) =
      syncCourses "u1" [gcourseMath, gcourseBio] [] :=
  C5_sync_courses_idempotent "u1" [gcourseMath, gcourseBio] []
    (by decide) (by simp [keysNodup])

/-- The prisma filter of SyncJob.run (jobs/index.ts lines 39-49): syncEnabled
true and accessToken not the empty string. -/
def syncEligible (c : Connection) : Bool :=
  c.syncEnabled && !(c.accessToken == "")

/-- One account's pass inside SyncJob.run (jobs/index.ts lines 53-96):
courses and tasks are synced through the upstream API and, as the final step
of a successful pass, the connection's lastSyncAt is set to now.  `ok`
abstracts whether the account's pass threw before reaching that update; a
thrown error is caught by the per-account try/catch and leaves lastSyncAt
untouched. -/
def runAccountPass (now : Int) (ok : Bool) (db : List Connection)
    (c : Connection) : List Connection :=
  if ok then
    db.map (fun d =>
      if d.userId == c.userId then { d with lastSyncAt := some now } else d)
  else db

/-- `SyncJob.run` (jobs/index.ts lines 37-97): select the eligible
connections, process each inside the per-account try/catch.  Returns the
final connection table together with the userIds for which the upstream API
was invoked — exactly the selected connections. -/
def syncRun (db : List Connection) (outcome : String → Bool) (now : Int) :
    List Connection × List String :=
  ((db.filter syncEligible).foldl
      (fun acc c => runAccountPass now (outcome c.userId) acc c) db,
   (db.filter syncEligible).map (fun c => c.userId))

theorem foldl_pass_mem (now : Int) (outcome : String → Bool)
    (c : Connection) :
    ∀ (todo : List Connection) (acc : List Connection),
      (∀ d ∈ todo, d.userId ≠ c.userId) → c ∈ acc →
      c ∈ todo.foldl
        (fun acc d => runAccountPass now (outcome d.userId) acc d) acc := by
  intro todo
  induction todo with
  | nil => intro acc _ hmem; exact hmem
  | cons d todo ih =>
    intro acc hne hmem
    refine ih _ (fun x hx => hne x (List.mem_cons_of_mem d hx)) ?_
    show c ∈ runAccountPass now (outcome d.userId) acc d
    unfold runAccountPass
    by_cases hok : outcome d.userId = true
    · rw [if_pos hok]
      have hdc : (c.userId == d.userId) = false :=
        beq_eq_false_iff_ne.mpr (fun he =>
          hne d (List.mem_cons_self d todo) he.symm)
      have hfc : (fun x : Connection =>
          if x.userId == d.userId then { x with lastSyncAt := some now }
          else x) c = c := by
        simp [hdc]
      have hmm := List.mem_map_of_mem (f := fun x : Connection =>
          if x.userId == d.userId then { x with lastSyncAt := some now }
          else x) hmem
      rw [hfc] at hmm
      exact hmm
    · rw [if_neg hok]
      exact hmem

/-- C4: a connection with sync disabled or an empty access credential is
untouched by a scheduled sync pass: its row (including lastSyncAt) survives
unchanged in the table, and its userId is not among the accounts for which
the upstream API was invoked. -/
theorem C4_disabled_connection_untouched (db : List Connection)
    (outcome : String → Bool) (now : Int) (c : Connection)
    (hu : (db.map (fun d => d.userId)).Nodup) (hc : c ∈ db)
    (hskip : c.syncEnabled = false ∨ c.accessToken = "") :
    c ∈ (syncRun db outcome now).1 ∧
    c.userId ∉ (syncRun db outcome now).2 := by
  have hineg : syncEligible c = false := by
    rcases hskip with h | h <;> simp [syncEligible, h]
  have hinj := List.inj_on_of_nodup_map hu
  have hne : ∀ d ∈ db.filter syncEligible, d.userId ≠ c.userId := by
    intro d hd he
    have hdmem := (List.mem_filter.mp hd).1
    have hdel := (List.mem_filter.mp hd).2
    have : d = c := hinj hdmem hc he
    rw [this, hineg] at hdel
    cases hdel
  constructor
  · exact foldl_pass_mem now outcome c (db.filter syncEligible) db hne hc
  · intro hmem
    rcases List.mem_map.mp hmem with ⟨d, hd, hdu⟩
    exact hne d hd hdu

/-- A connection eligible for sync. -/
def connOk : Connection :=
  { userId := "alice", accessToken := "tok-a", refreshToken := "r"
    tokenExpiry := 99, syncEnabled := true, lastSyncAt := none }

/-- A connection with sync disabled. -/
def connOff : Connection :=
  { userId := "bob", accessToken := "tok-b", refreshToken := "r"
    tokenExpiry := 99, syncEnabled := false, lastSyncAt := some 7 }

/-- Witness for C4: the disabled connection of a two-account table keeps its
row and is never polled. -/
theorem C4_disabled_connection_untouched_witness :
    connOff ∈ (syncRun [connOk, connOff] (fun _ => true) 1000).1 ∧
    connOff.userId ∉ (syncRun [connOk, connOff] (fun _ => true) 1000).2 :=
  C4_disabled_connection_untouched [connOk, connOff] (fun _ => true) 1000
    connOff (by decide) (by decide) (Or.inl rfl)

/-- The per-connection loop body of SyncJob.run wraps each account's work in
try/catch (jobs/index.ts lines 53-96): an error is logged with the account's
identity and the loop continues with the next connection.  Returns the
attempted userIds and the logged error lines. -/
def syncAccountsLoop (outcome : String → Except String Unit) :
    List Connection → List String × List String
  | [] => ([], [])
  | c :: cs =>
    let r := syncAccountsLoop outcome cs
    match outcome c.userId with
    | .ok _ => (c.userId :: r.1, r.2)
    | .error e => (c.userId :: r.1, (c.userId ++ ": " ++ e) :: r.2)

/-- The per-user loop of ReminderJob.run (google.routes.ts lines 244-314) has
no per-user try/catch: an error thrown while processing one user escapes the
loop — it is caught only by the scheduler wrapper (jobs/index.ts lines
19-26) — and ends the pass.  Returns the userIds actually reached and the
escaped error, if any. -/
def reminderUsersLoop (outcome : String → Except String Unit) :
    List String → List String × Option String
  | [] => ([], none)
  | u :: us =>
    match outcome u with
    | .error e => ([u], some e)
    | .ok _ =>
      let r := reminderUsersLoop outcome us
      (u :: r.1, r.2)

/-- An outcome map where processing user "alice" throws. -/
def failAlice : String → Except String Unit :=
  fun u => if u == "alice" then .error "boom" else .ok ()

/-- C6 counterexample: in the reminder pass an error thrown while processing
"alice" is not caught at per-user scope — "bob" is never processed in the
same pass, the error escaping to the scheduler wrapper — refuting the claim
for the reminder trigger engine. -/
theorem C6_counterexample :
    (reminderUsersLoop failAlice ["alice", "bob"]).1 = ["alice"] ∧
    "bob" ∉ (reminderUsersLoop failAlice ["alice", "bob"]).1 ∧
    (reminderUsersLoop failAlice ["alice", "bob"]).2 = some "boom" := by
  refine ⟨by decide, by decide, by decide⟩

/-- C6 amended: the sync orchestrator pass catches and logs per-account
errors and always attempts every selected account regardless of earlier
failures; the reminder pass, however, has no per-user catch — when every
user before u succeeds and processing u throws, the pass ends at u with the
error escaping to the scheduler-level wrapper and the remaining users are
not processed in that tick. -/
theorem C6_sync_isolated_reminder_aborts
    (outcome : String → Except String Unit) :
    (∀ cs : List Connection,
      (syncAccountsLoop outcome cs).1 = cs.map (fun c => c.userId)) ∧
    (∀ (pre rest : List String) (u : String) (e : String),
      (∀ v ∈ pre, outcome v = .ok ()) → outcome u = .error e →
      reminderUsersLoop outcome (pre ++ u :: rest) = (pre ++ [u], some e)) := by
  constructor
  · intro cs
    induction cs with
    | nil => rfl
    | cons c cs ih =>
      unfold syncAccountsLoop
      cases outcome c.userId with
      | ok v => simp [ih]
      | error e => simp [ih]
  · intro pre
    induction pre with
    | nil =>
      intro rest u e hpre hu
      simp only [List.nil_append]
      unfold reminderUsersLoop
      rw [hu]
    | cons v pre ih =>
      intro rest u e hpre hu
      have hv := hpre v (List.mem_cons_self v pre)
      simp only [List.cons_append]
      unfold reminderUsersLoop
      rw [hv]
      have hrec := ih rest u e
        (fun w hw => hpre w (List.mem_cons_of_mem v hw)) hu
      simp [hrec]

/-- Witness for the amended C6 theorem: with "alice" throwing, the sync loop
still attempts both accounts while the reminder loop stops at "alice" and
never reaches "bob". -/
theorem C6_sync_isolated_reminder_aborts_witness :
    (syncAccountsLoop failAlice [connOk, connOff]).1 =
      [connOk, connOff].map (fun c => c.userId) ∧
    reminderUsersLoop failAlice ([] ++ "alice" :: ["bob"]) =
      ([] ++ ["alice"], some "boom") :=
  ⟨(C6_sync_isolated_reminder_aborts failAlice).1 [connOk, connOff],
   (C6_sync_isolated_reminder_aborts failAlice).2 [] ["bob"] "alice" "boom"
     (fun v hv => absurd hv (List.not_mem_nil v)) rfl⟩

end AdminTime
